import Mathlib

/-!
Verification of the persistence and request-handling layer of the Aham
journaling application (an Express + better-sqlite3 server).

The SQLite tables `entries`, `targets`, `tasks`, `routine_templates` and
`routine_template_tasks` are modelled as lists of rows inside a `DB`
record; `AUTOINCREMENT` primary keys are modelled by per-table counters.
Every HTTP handler of the server becomes a function from `DB` (and the
request payload) to `DB` and/or a JSON response.  Nullable `TEXT` columns
are `Option String`; a `none` bound parameter stands for SQL `NULL`.
-/

namespace Aham

/-- A JavaScript value as it can appear in a JSON request body field;
`undefined` stands for an absent field. -/
inductive JSVal where
  | undefined
  | null
  | bool (b : Bool)
  | num (n : Int)
  | str (s : String)
deriving DecidableEq, Repr

/-- JavaScript truthiness, as used by the handler expression
`completed ? 1 : 0`. -/
def JSVal.truthy : JSVal → Bool
  | .undefined => false
  | .null => false
  | .bool b => b
  | .num n => n != 0
  | .str s => s != ""

/-- A row of the `entries` table. -/
structure EntryRow where
  id : Nat
  date : Option String
  journal_text : Option String
  mood : Option String
  sleep_start : Option String
  sleep_end : Option String
  reflection_json : Option String
  image_data : Option String
deriving DecidableEq, Repr

/-- A row of the `targets` table (`completed INTEGER DEFAULT 0`). -/
structure TargetRow where
  id : Nat
  type : Option String
  title : Option String
  completed : Int
  period_key : Option String
deriving DecidableEq, Repr

/-- A row of the `tasks` table (`completed INTEGER DEFAULT 0`). -/
structure TaskRow where
  id : Nat
  date : Option String
  title : Option String
  completed : Int
deriving DecidableEq, Repr

/-- A row of the `routine_templates` table (`name TEXT UNIQUE`). -/
structure TemplateRow where
  id : Nat
  name : Option String
deriving DecidableEq, Repr

/-- A row of the `routine_template_tasks` table, whose `template_id`
references `routine_templates(id)` with `ON DELETE CASCADE`. -/
structure TemplateTaskRow where
  id : Nat
  template_id : Nat
  title : Option String
deriving DecidableEq, Repr

/-- The whole SQLite database `aham.db`: one list per table plus the
next `AUTOINCREMENT` value of each table. -/
structure DB where
  entries : List EntryRow
  targets : List TargetRow
  tasks : List TaskRow
  templates : List TemplateRow
  templateTasks : List TemplateTaskRow
  nextEntryId : Nat
  nextTargetId : Nat
  nextTaskId : Nat
  nextTemplateId : Nat
  nextTemplateTaskId : Nat
deriving DecidableEq, Repr

/-- The freshly created database: empty tables, ids starting at 1. -/
def DB.init : DB := ⟨[], [], [], [], [], 1, 1, 1, 1, 1⟩

/-- SQL `COALESCE(a, b)` on two nullable text values. -/
def coalesce (a b : Option String) : Option String :=
  match a with
  | some v => some v
  | none => b

/-- The request body of `POST /api/entries` after destructuring. -/
structure EntryPayload where
  date : Option String
  journal_text : Option String
  mood : Option String
  sleep_start : Option String
  sleep_end : Option String
  reflection_json : Option String
  image_data : Option String
deriving DecidableEq, Repr

/-- Handler `POST /api/entries`: `INSERT ... ON CONFLICT(date) DO UPDATE SET`
overwriting every column except `image_data`, which is
`COALESCE(excluded.image_data, entries.image_data)`.  A `NULL` date never
conflicts with the `UNIQUE` index (SQLite treats `NULL`s as distinct), so
it takes the plain-insert path. -/
def postEntry (db : DB) (p : EntryPayload) : DB :=
  match p.date with
  | none =>
    { db with
      entries := db.entries ++
        [⟨db.nextEntryId, none, p.journal_text, p.mood, p.sleep_start,
          p.sleep_end, p.reflection_json, p.image_data⟩],
      nextEntryId := db.nextEntryId + 1 }
  | some d =>
    if db.entries.any (fun e => e.date == some d) then
      { db with
        entries := db.entries.map (fun e =>
          if e.date == some d then
            { e with
              journal_text := p.journal_text,
              mood := p.mood,
              sleep_start := p.sleep_start,
              sleep_end := p.sleep_end,
              reflection_json := p.reflection_json,
              image_data := coalesce p.image_data e.image_data }
          else e) }
    else
      { db with
        entries := db.entries ++
          [⟨db.nextEntryId, some d, p.journal_text, p.mood, p.sleep_start,
            p.sleep_end, p.reflection_json, p.image_data⟩],
        nextEntryId := db.nextEntryId + 1 }

/-- The query of `GET /api/entries/:date`:
`SELECT * FROM entries WHERE date = ?`. -/
def getEntryByDate (db : DB) (d : String) : Option EntryRow :=
  db.entries.find? (fun e => e.date == some d)

/-- Handler `POST /api/targets`: plain insert, `completed` defaults to `0`. -/
def postTarget (db : DB) (type title period_key : Option String) : DB :=
  { db with
    targets := db.targets ++ [⟨db.nextTargetId, type, title, 0, period_key⟩],
    nextTargetId := db.nextTargetId + 1 }

/-- Handler `PATCH /api/targets/:id`:
`UPDATE targets SET completed = ? WHERE id = ?` with the bound value
`completed ? 1 : 0`. -/
def patchTarget (db : DB) (id : Nat) (completed : JSVal) : DB :=
  { db with
    targets := db.targets.map (fun t =>
      if t.id == id then
        { t with completed := if completed.truthy then 1 else 0 }
      else t) }

/-- Handler `DELETE /api/targets/:id`. -/
def deleteTarget (db : DB) (id : Nat) : DB :=
  { db with targets := db.targets.filter (fun t => t.id != id) }

/-- The query of `GET /api/targets/:period`:
`SELECT * FROM targets WHERE period_key = ?`. -/
def getTargets (db : DB) (period : String) : List TargetRow :=
  db.targets.filter (fun t => t.period_key == some period)

/-- Handler `POST /api/tasks`: plain insert, `completed` defaults to `0`. -/
def postTask (db : DB) (date title : Option String) : DB :=
  { db with
    tasks := db.tasks ++ [⟨db.nextTaskId, date, title, 0⟩],
    nextTaskId := db.nextTaskId + 1 }

/-- Handler `PATCH /api/tasks/:id`:
`UPDATE tasks SET completed = ? WHERE id = ?` with the bound value
`completed ? 1 : 0`. -/
def patchTask (db : DB) (id : Nat) (completed : JSVal) : DB :=
  { db with
    tasks := db.tasks.map (fun t =>
      if t.id == id then
        { t with completed := if completed.truthy then 1 else 0 }
      else t) }

/-- Handler `DELETE /api/tasks/:id`. -/
def deleteTask (db : DB) (id : Nat) : DB :=
  { db with tasks := db.tasks.filter (fun t => t.id != id) }

/-- The query of `GET /api/tasks/:date`:
`SELECT * FROM tasks WHERE date = ?`. -/
def getTasks (db : DB) (d : String) : List TaskRow :=
  db.tasks.filter (fun t => t.date == some d)

/-- The query `SELECT * FROM routine_template_tasks WHERE template_id = ?`,
used both by the templates listing and by apply-template. -/
def getTemplateChildren (db : DB) (tid : Nat) : List TemplateTaskRow :=
  db.templateTasks.filter (fun c => c.template_id == tid)

/-- The child-insert loop of `POST /api/routine-templates`: one
`INSERT INTO routine_template_tasks (template_id, title)` per element. -/
def insertTemplateTasks (db : DB) (tid : Nat) (titles : List (Option String)) : DB :=
  titles.foldl (fun acc title =>
    { acc with
      templateTasks := acc.templateTasks ++ [⟨acc.nextTemplateTaskId, tid, title⟩],
      nextTemplateTaskId := acc.nextTemplateTaskId + 1 }) db

/-- Handler `POST /api/routine-templates`: insert the parent row first, then one
child row per title.  The parent insert hits the `UNIQUE` constraint on
`name` when a template with the same non-null name exists; better-sqlite3
then throws before the child loop runs, which the handler does not catch,
so the request fails with no row written (`Except.error`). -/
def postRoutineTemplates (db : DB) (name : Option String) (titles : List (Option String)) :
    Except Unit (DB × Nat) :=
  match name with
  | some n =>
    if db.templates.any (fun t => t.name == some n) then
      .error ()
    else
      let tid := db.nextTemplateId
      let db1 := { db with
        templates := db.templates ++ [⟨tid, some n⟩],
        nextTemplateId := tid + 1 }
      .ok (insertTemplateTasks db1 tid titles, tid)
  | none =>
    let tid := db.nextTemplateId
    let db1 := { db with
      templates := db.templates ++ [⟨tid, none⟩],
      nextTemplateId := tid + 1 }
    .ok (insertTemplateTasks db1 tid titles, tid)

/-- Handler `DELETE /api/routine-templates/:id`: one statement deleting the parent
row; the schema's `ON DELETE CASCADE` (enforced because better-sqlite3
turns foreign-key enforcement on) removes the child rows in the same
statement. -/
def deleteRoutineTemplate (db : DB) (id : Nat) : DB :=
  { db with
    templates := db.templates.filter (fun t => t.id != id),
    templateTasks := db.templateTasks.filter (fun c => c.template_id != id) }

/-- One `INSERT INTO tasks (date, title) VALUES (?, ?)` of the
apply-template loop. -/
def insertTask (db : DB) (date title : Option String) : DB :=
  { db with
    tasks := db.tasks ++ [⟨db.nextTaskId, date, title, 0⟩],
    nextTaskId := db.nextTaskId + 1 }

/-- Handler `POST /api/apply-template`: read the template's child rows, then run
the insert loop over all of them. -/
def applyTemplate (db : DB) (date : Option String) (tid : Nat) : DB :=
  (getTemplateChildren db tid).foldl (fun acc c => insertTask acc date c.title) db

/-- The apply-template loop interrupted after `k` of its iterations: each
insert is its own auto-committed statement (the handler opens no
transaction), so a failure after `k` inserts leaves exactly those `k`
rows in the table. -/
def applyTemplateUpTo (db : DB) (date : Option String) (tid : Nat) (k : Nat) : DB :=
  ((getTemplateChildren db tid).take k).foldl (fun acc c => insertTask acc date c.title) db

/-- One mutating API request, with its already-parsed body. -/
inductive Op where
  | postEntry (p : EntryPayload)
  | postTarget (type title period_key : Option String)
  | patchTarget (id : Nat) (completed : JSVal)
  | deleteTarget (id : Nat)
  | postTask (date title : Option String)
  | patchTask (id : Nat) (completed : JSVal)
  | deleteTask (id : Nat)
  | postTemplate (name : Option String) (titles : List (Option String))
  | deleteTemplate (id : Nat)
  | applyTemplate (date : Option String) (tid : Nat)
deriving DecidableEq, Repr

/-- Effect of one request on the database.  A failed
`POST /api/routine-templates` (duplicate name) leaves the database
unchanged: the only statement it attempted was rejected whole. -/
def applyOp (db : DB) : Op → DB
  | .postEntry p => postEntry db p
  | .postTarget type title period_key => postTarget db type title period_key
  | .patchTarget id completed => patchTarget db id completed
  | .deleteTarget id => deleteTarget db id
  | .postTask date title => postTask db date title
  | .patchTask id completed => patchTask db id completed
  | .deleteTask id => deleteTask db id
  | .postTemplate name titles =>
    match postRoutineTemplates db name titles with
    | .error _ => db
    | .ok (db1, _) => db1
  | .deleteTemplate id => deleteRoutineTemplate db id
  | .applyTemplate date tid => applyTemplate db date tid

/-- The database reached by a sequence of requests against a fresh file. -/
def run (ops : List Op) : DB := ops.foldl applyOp DB.init

/-! ### JSON responses

The handlers answer with `res.json(...)`; reads have no error path at all
(a missing row yields `null` or an empty array, still with a success
status), while a thrown database error surfaces as an HTTP error. -/

/-- A JSON document, as produced by `res.json`. -/
inductive Json where
  | null
  | bool (b : Bool)
  | str (s : String)
  | num (n : Int)
  | arr (xs : List Json)
  | obj (fields : List (String × Json))

/-- A nullable text column rendered into JSON. -/
def jsonOfOpt : Option String → Json
  | none => Json.null
  | some s => Json.str s

def fieldId : String := "id"
def fieldDate : String := "date"
def fieldJournal : String := "journal_text"
def fieldMood : String := "mood"
def fieldSleepStart : String := "sleep_start"
def fieldSleepEnd : String := "sleep_end"
def fieldReflection : String := "reflection_json"
def fieldImage : String := "image_data"
def fieldType : String := "type"
def fieldTitle : String := "title"
def fieldCompleted : String := "completed"
def fieldPeriodKey : String := "period_key"
def fieldName : String := "name"
def fieldTemplateId : String := "template_id"
def fieldTasks : String := "tasks"

/-- A `SELECT *` row of `entries` rendered as JSON. -/
def entryToJson (e : EntryRow) : Json :=
  .obj [(fieldId, .num e.id), (fieldDate, jsonOfOpt e.date),
    (fieldJournal, jsonOfOpt e.journal_text), (fieldMood, jsonOfOpt e.mood),
    (fieldSleepStart, jsonOfOpt e.sleep_start), (fieldSleepEnd, jsonOfOpt e.sleep_end),
    (fieldReflection, jsonOfOpt e.reflection_json), (fieldImage, jsonOfOpt e.image_data)]

/-- A `SELECT *` row of `tasks` rendered as JSON. -/
def taskToJson (t : TaskRow) : Json :=
  .obj [(fieldId, .num t.id), (fieldDate, jsonOfOpt t.date),
    (fieldTitle, jsonOfOpt t.title), (fieldCompleted, .num t.completed)]

/-- A `SELECT *` row of `targets` rendered as JSON. -/
def targetToJson (t : TargetRow) : Json :=
  .obj [(fieldId, .num t.id), (fieldType, jsonOfOpt t.type),
    (fieldTitle, jsonOfOpt t.title), (fieldCompleted, .num t.completed),
    (fieldPeriodKey, jsonOfOpt t.period_key)]

/-- A `SELECT *` row of `routine_template_tasks` rendered as JSON. -/
def templateTaskToJson (c : TemplateTaskRow) : Json :=
  .obj [(fieldId, .num c.id), (fieldTemplateId, .num c.template_id),
    (fieldTitle, jsonOfOpt c.title)]

/-- Outcome of a request: a JSON body with a success status, or an HTTP
error status (express's default handling of a thrown exception). -/
inductive HttpResult where
  | ok (body : Json)
  | error (code : Nat)

/-- Whether the response carries a success status. -/
def HttpResult.isOk : HttpResult → Bool
  | .ok _ => true
  | .error _ => false

/-- Handler `GET /api/entries/:date`: `res.json(entry || null)`. -/
def getEntryHandler (db : DB) (d : String) : HttpResult :=
  match getEntryByDate db d with
  | some e => .ok (entryToJson e)
  | none => .ok Json.null

/-- Handler `GET /api/tasks/:date`. -/
def getTasksHandler (db : DB) (d : String) : HttpResult :=
  .ok (.arr ((getTasks db d).map taskToJson))

/-- Handler `GET /api/targets/:period`. -/
def getTargetsHandler (db : DB) (period : String) : HttpResult :=
  .ok (.arr ((getTargets db period).map targetToJson))

/-- Handler `GET /api/routine-templates`: every template with its nested child
rows. -/
def getTemplatesHandler (db : DB) : HttpResult :=
  .ok (.arr (db.templates.map (fun t =>
    .obj [(fieldId, .num t.id), (fieldName, jsonOfOpt t.name),
      (fieldTasks, .arr ((getTemplateChildren db t.id).map templateTaskToJson))])))

/-! ### The entries listing

`GET /api/entries` runs `SELECT * FROM entries ORDER BY date DESC`.
`entryDateGe a b` holds when `a` may come before `b` in that order:
its date is the larger one, with `NULL` sorting last under `DESC`. -/

/-- Comparison on nullable dates matching SQLite ordering with `NULL`
smallest: used reversed for the `DESC` listing. -/
def optDateLe : Option String → Option String → Prop
  | none, _ => True
  | some _, none => False
  | some s, some t => s ≤ t

instance : DecidableRel optDateLe := fun a b =>
  match a, b with
  | none, _ => isTrue trivial
  | some _, none => isFalse id
  | some s, some t => inferInstanceAs (Decidable (s ≤ t))

/-- Row `a` may precede row `b` in the `ORDER BY date DESC` output. -/
def entryDateGe (a b : EntryRow) : Prop := optDateLe b.date a.date

instance : DecidableRel entryDateGe := fun a b =>
  inferInstanceAs (Decidable (optDateLe b.date a.date))

instance : IsTotal EntryRow entryDateGe where
  total a b := by
    unfold entryDateGe optDateLe
    cases a.date <;> cases b.date <;> simp [le_total]

instance : IsTrans EntryRow entryDateGe where
  trans a b c hab hbc := by
    unfold entryDateGe optDateLe at *
    cases ha : a.date <;> cases hb : b.date <;> cases hc : c.date <;> simp_all
    exact le_trans hbc hab

/-- Handler `GET /api/entries`: all rows, ordered by date descending. -/
def getEntries (db : DB) : List EntryRow :=
  db.entries.insertionSort entryDateGe

/-! ### String constants used in concrete scenarios -/

def sMorning : String := "Morning"
def sStretch : String := "Stretch"
def sHydrate : String := "Hydrate"
def dJan : String := "2024-01-01"
def dFeb : String := "2024-02-02"

/-! ### The task rows materialised by the apply-template loop -/

/-- The task rows the apply-template loop creates from the child rows
`cs`, when the `tasks` table's next id is `start`. -/
def newTasksFrom (start : Nat) (date : Option String) : List TemplateTaskRow → List TaskRow
  | [] => []
  | c :: cs => ⟨start, date, c.title, 0⟩ :: newTasksFrom (start + 1) date cs

lemma length_newTasksFrom (start : Nat) (date : Option String)
    (cs : List TemplateTaskRow) : (newTasksFrom start date cs).length = cs.length := by
  induction cs generalizing start with
  | nil => rfl
  | cons c cs ih => simp [newTasksFrom, ih]

lemma map_title_newTasksFrom (start : Nat) (date : Option String)
    (cs : List TemplateTaskRow) :
    (newTasksFrom start date cs).map (fun t => t.title) = cs.map (fun c => c.title) := by
  induction cs generalizing start with
  | nil => rfl
  | cons c cs ih => simp [newTasksFrom, ih]

lemma date_newTasksFrom (start : Nat) (date : Option String)
    (cs : List TemplateTaskRow) :
    (newTasksFrom start date cs).all (fun t => t.date == date) = true := by
  induction cs generalizing start with
  | nil => rfl
  | cons c cs ih =>
    simp_all [newTasksFrom]
    exact ih (start + 1)

lemma completed_newTasksFrom (start : Nat) (date : Option String)
    (cs : List TemplateTaskRow) :
    (newTasksFrom start date cs).all (fun t => t.completed == 0) = true := by
  induction cs generalizing start with
  | nil => rfl
  | cons c cs ih =>
    simp_all [newTasksFrom]
    exact ih (start + 1)

lemma foldl_insertTask (cs : List TemplateTaskRow) (db : DB) (date : Option String) :
    cs.foldl (fun acc c => insertTask acc date c.title) db =
      { db with
        tasks := db.tasks ++ newTasksFrom db.nextTaskId date cs,
        nextTaskId := db.nextTaskId + cs.length } := by
  induction cs generalizing db with
  | nil => simp [newTasksFrom]
  | cons c cs ih =>
    rw [List.foldl_cons, ih]
    simp [insertTask, newTasksFrom]
    omega

/-- A database holding one routine template (id 1) with two child task
rows and an empty `tasks` table. -/
def dbTwoChildren : DB :=
  { DB.init with
    templates := [⟨1, some sMorning⟩],
    templateTasks := [⟨1, 1, some sStretch⟩, ⟨2, 1, some sHydrate⟩],
    nextTemplateId := 2,
    nextTemplateTaskId := 3 }

/-- C3: for every template `tid` with `n` child titles and every date,
`POST /api/apply-template` appends exactly `n` new `tasks` rows whose
titles are the child titles and whose date is the requested one, keeps
every pre-existing task row, and leaves the template tables unchanged. -/
theorem applyTemplate_copies_children (db : DB) (date : Option String) (tid : Nat) :
    (applyTemplate db date tid).tasks.length
      = db.tasks.length + (getTemplateChildren db tid).length ∧
    (applyTemplate db date tid).tasks.take db.tasks.length = db.tasks ∧
    ((applyTemplate db date tid).tasks.drop db.tasks.length).map (fun t => t.title)
      = (getTemplateChildren db tid).map (fun c => c.title) ∧
    ((applyTemplate db date tid).tasks.drop db.tasks.length).all
      (fun t => t.date == date) = true ∧
    ((applyTemplate db date tid).tasks.drop db.tasks.length).all
      (fun t => t.completed == 0) = true ∧
    (applyTemplate db date tid).templates = db.templates ∧
    (applyTemplate db date tid).templateTasks = db.templateTasks := by
  unfold applyTemplate
  rw [foldl_insertTask]
  refine ⟨?_, ?_, ?_, ?_, ?_, rfl, rfl⟩
  · simp [length_newTasksFrom]
  · simp [List.take_left]
  · simp [List.drop_left, map_title_newTasksFrom]
  · simp only [List.drop_left]
    exact date_newTasksFrom _ _ _
  · simp only [List.drop_left]
    exact completed_newTasksFrom _ _ _

/-- C4 (amended): delete-template is atomic — its one statement removes
the parent row and every cascaded child row and touches nothing else —
but apply-template is not: each of its inserts commits on its own, so an
interruption after `k` of the `n` child inserts leaves exactly the first
`k` new task rows in the table. -/
theorem deleteTemplate_atomic_applyTemplate_stepwise (db : DB) (date : Option String)
    (tid : Nat) (k : Nat) :
    (applyTemplateUpTo db date tid k).tasks
      = db.tasks ++ newTasksFrom db.nextTaskId date ((getTemplateChildren db tid).take k) ∧
    applyTemplateUpTo db date tid (getTemplateChildren db tid).length
      = applyTemplate db date tid ∧
    getTemplateChildren (deleteRoutineTemplate db tid) tid = [] ∧
    (deleteRoutineTemplate db tid).templates.all (fun t => t.id != tid) = true ∧
    (deleteRoutineTemplate db tid).entries = db.entries ∧
    (deleteRoutineTemplate db tid).tasks = db.tasks ∧
    (deleteRoutineTemplate db tid).targets = db.targets := by
  refine ⟨?_, ?_, ?_, ?_, rfl, rfl, rfl⟩
  · unfold applyTemplateUpTo
    rw [foldl_insertTask]
  · unfold applyTemplateUpTo applyTemplate
    rw [List.take_length]
  · unfold getTemplateChildren deleteRoutineTemplate
    simp [List.filter_filter]
  · unfold deleteRoutineTemplate
    simp only [List.all_eq_true, List.mem_filter]
    exact fun t h => h.2

/-- C4 (counterexample): the apply-template loop interrupted after one of
two inserts leaves a state that is neither the initial one nor the fully
applied one, so the operation as a whole is not atomic. -/
theorem applyTemplate_not_atomic :
    ¬ (applyTemplateUpTo dbTwoChildren (some dFeb) 1 1 = dbTwoChildren ∨
       applyTemplateUpTo dbTwoChildren (some dFeb) 1 1
         = applyTemplate dbTwoChildren (some dFeb) 1) := by
  decide

/-! ### Lemmas about the completion-flag update loops -/

lemma map_patchTask_idem (l : List TaskRow) (id : Nat) (c : Int) :
    (l.map (fun t => if t.id == id then { t with completed := c } else t)).map
        (fun t => if t.id == id then { t with completed := c } else t)
      = l.map (fun t => if t.id == id then { t with completed := c } else t) := by
  induction l with
  | nil => rfl
  | cons t l ih =>
    simp only [List.map_cons]
    rw [ih]
    by_cases h : t.id = id <;> simp [h]

lemma map_patchTarget_idem (l : List TargetRow) (id : Nat) (c : Int) :
    (l.map (fun t => if t.id == id then { t with completed := c } else t)).map
        (fun t => if t.id == id then { t with completed := c } else t)
      = l.map (fun t => if t.id == id then { t with completed := c } else t) := by
  induction l with
  | nil => rfl
  | cons t l ih =>
    simp only [List.map_cons]
    rw [ih]
    by_cases h : t.id = id <;> simp [h]

lemma proj_patchTask (l : List TaskRow) (id : Nat) (c : Int) :
    (l.map (fun t => if t.id == id then { t with completed := c } else t)).map
        (fun t => (t.id, t.date, t.title))
      = l.map (fun t => (t.id, t.date, t.title)) := by
  induction l with
  | nil => rfl
  | cons t l ih =>
    simp only [List.map_cons]
    rw [ih]
    by_cases h : t.id = id <;> simp [h]

lemma proj_patchTarget (l : List TargetRow) (id : Nat) (c : Int) :
    (l.map (fun t => if t.id == id then { t with completed := c } else t)).map
        (fun t => (t.id, t.type, t.title, t.period_key))
      = l.map (fun t => (t.id, t.type, t.title, t.period_key)) := by
  induction l with
  | nil => rfl
  | cons t l ih =>
    simp only [List.map_cons]
    rw [ih]
    by_cases h : t.id = id <;> simp [h]

lemma filter_patchTask (l : List TaskRow) (id : Nat) (c : Int) :
    (l.map (fun t => if t.id == id then { t with completed := c } else t)).filter
        (fun t => t.id != id)
      = l.filter (fun t => t.id != id) := by
  induction l with
  | nil => rfl
  | cons t l ih =>
    simp only [List.map_cons, List.filter_cons]
    rw [ih]
    by_cases h : t.id = id <;> simp [h]

lemma filter_patchTarget (l : List TargetRow) (id : Nat) (c : Int) :
    (l.map (fun t => if t.id == id then { t with completed := c } else t)).filter
        (fun t => t.id != id)
      = l.filter (fun t => t.id != id) := by
  induction l with
  | nil => rfl
  | cons t l ih =>
    simp only [List.map_cons, List.filter_cons]
    rw [ih]
    by_cases h : t.id = id <;> simp [h]

lemma all_completed_patchTask (l : List TaskRow) (id : Nat) (c : Int) :
    ((l.map (fun t => if t.id == id then { t with completed := c } else t)).filter
        (fun t => t.id == id)).all (fun t => t.completed == c) = true := by
  simp only [List.all_eq_true, List.mem_filter, List.mem_map]
  rintro t ht
  obtain ⟨⟨a, ha, rfl⟩, hp⟩ := ht
  by_cases h : a.id = id <;> simp_all

lemma all_completed_patchTarget (l : List TargetRow) (id : Nat) (c : Int) :
    ((l.map (fun t => if t.id == id then { t with completed := c } else t)).filter
        (fun t => t.id == id)).all (fun t => t.completed == c) = true := by
  simp only [List.all_eq_true, List.mem_filter, List.mem_map]
  rintro t ht
  obtain ⟨⟨a, ha, rfl⟩, hp⟩ := ht
  by_cases h : a.id = id <;> simp_all

/-- C5: PATCHing a Task's or Target's `completed` flag is idempotent —
repeating the identical call leaves the same state — touches no column of
the row other than `completed`, leaves rows with other ids untouched, and
changes no other table. -/
theorem patch_idempotent_and_independent (db : DB) (id : Nat) (v : JSVal) :
    patchTask (patchTask db id v) id v = patchTask db id v ∧
    patchTarget (patchTarget db id v) id v = patchTarget db id v ∧
    (patchTask db id v).tasks.map (fun t => (t.id, t.date, t.title))
      = db.tasks.map (fun t => (t.id, t.date, t.title)) ∧
    (patchTask db id v).tasks.filter (fun t => t.id != id)
      = db.tasks.filter (fun t => t.id != id) ∧
    (patchTarget db id v).targets.map (fun t => (t.id, t.type, t.title, t.period_key))
      = db.targets.map (fun t => (t.id, t.type, t.title, t.period_key)) ∧
    (patchTarget db id v).targets.filter (fun t => t.id != id)
      = db.targets.filter (fun t => t.id != id) ∧
    (patchTask db id v).entries = db.entries ∧
    (patchTask db id v).targets = db.targets ∧
    (patchTask db id v).templates = db.templates ∧
    (patchTask db id v).templateTasks = db.templateTasks ∧
    (patchTarget db id v).entries = db.entries ∧
    (patchTarget db id v).tasks = db.tasks ∧
    (patchTarget db id v).templates = db.templates ∧
    (patchTarget db id v).templateTasks = db.templateTasks := by
  refine ⟨?_, ?_, ?_, ?_, ?_, ?_, rfl, rfl, rfl, rfl, rfl, rfl, rfl, rfl⟩
  · unfold patchTask
    rw [map_patchTask_idem]
  · unfold patchTarget
    rw [map_patchTarget_idem]
  · unfold patchTask
    exact proj_patchTask db.tasks id _
  · unfold patchTask
    exact filter_patchTask db.tasks id _
  · unfold patchTarget
    exact proj_patchTarget db.targets id _
  · unfold patchTarget
    exact filter_patchTarget db.targets id _

/-- C9: after any PATCH of a Task's or Target's `completed` field, the
stored value of the patched row is the integer `1` when the payload value
is truthy and `0` otherwise — in particular an absent (`undefined`),
`null`, `false` or `0` payload value stores `0` — so the flag is always
`0` or `1` after a PATCH. -/
theorem patch_stores_boolean_coercion (db : DB) (id : Nat) (v : JSVal) :
    ((patchTask db id v).tasks.filter (fun t => t.id == id)).all
      (fun t => t.completed == (if v.truthy then 1 else 0)) = true ∧
    ((patchTask db id v).tasks.filter (fun t => t.id == id)).all
      (fun t => t.completed == 0 || t.completed == 1) = true ∧
    ((patchTarget db id v).targets.filter (fun t => t.id == id)).all
      (fun t => t.completed == (if v.truthy then 1 else 0)) = true ∧
    ((patchTarget db id v).targets.filter (fun t => t.id == id)).all
      (fun t => t.completed == 0 || t.completed == 1) = true ∧
    JSVal.truthy .undefined = false ∧
    JSVal.truthy .null = false ∧
    JSVal.truthy (.bool false) = false ∧
    JSVal.truthy (.num 0) = false ∧
    (v.truthy = false →
      ((patchTask db id v).tasks.filter (fun t => t.id == id)).all
        (fun t => t.completed == 0) = true) ∧
    (v.truthy = false →
      ((patchTarget db id v).targets.filter (fun t => t.id == id)).all
        (fun t => t.completed == 0) = true) := by
  have htask := all_completed_patchTask db.tasks id (if v.truthy then 1 else 0)
  have htarget := all_completed_patchTarget db.targets id (if v.truthy then 1 else 0)
  refine ⟨htask, ?_, htarget, ?_, rfl, rfl, rfl, by decide, ?_, ?_⟩
  · simp only [List.all_eq_true] at htask ⊢
    intro t ht
    have := htask t ht
    by_cases hv : v.truthy <;> simp_all
  · simp only [List.all_eq_true] at htarget ⊢
    intro t ht
    have := htarget t ht
    by_cases hv : v.truthy <;> simp_all
  · intro hv
    simpa [patchTask, hv] using all_completed_patchTask db.tasks id 0
  · intro hv
    simpa [patchTarget, hv] using all_completed_patchTarget db.targets id 0

/-- A database with one task and one target, both with `completed = 1`. -/
def dbOneEach : DB :=
  { DB.init with
    tasks := [⟨1, some dJan, some sStretch, 1⟩],
    targets := [⟨1, some sMorning, some sHydrate, 1, some dJan⟩],
    nextTaskId := 2,
    nextTargetId := 2 }

/-- C9 (witness): patching with a `null` payload stores `0`. -/
theorem patch_stores_boolean_coercion_witness :
    JSVal.truthy .null = false ∧
    ((patchTask dbOneEach 1 .null).tasks.filter (fun t => t.id == 1)).all
      (fun t => t.completed == 0) = true :=
  ⟨rfl, (patch_stores_boolean_coercion dbOneEach 1 .null).2.2.2.2.2.2.2.2.1 rfl⟩

/-! ### Reachable-state invariants -/

/-- The child rows the template-creation loop appends for the given
titles. -/
def newChildrenFrom (start : Nat) (tid : Nat) : List (Option String) → List TemplateTaskRow
  | [] => []
  | ti :: ts => ⟨start, tid, ti⟩ :: newChildrenFrom (start + 1) tid ts

lemma insertTemplateTasks_eq (titles : List (Option String)) (db : DB) (tid : Nat) :
    insertTemplateTasks db tid titles =
      { db with
        templateTasks := db.templateTasks ++ newChildrenFrom db.nextTemplateTaskId tid titles,
        nextTemplateTaskId := db.nextTemplateTaskId + titles.length } := by
  induction titles generalizing db with
  | nil => simp [insertTemplateTasks, newChildrenFrom]
  | cons ti ts ih =>
    have step := ih { db with
      templateTasks := db.templateTasks ++ [⟨db.nextTemplateTaskId, tid, ti⟩],
      nextTemplateTaskId := db.nextTemplateTaskId + 1 }
    unfold insertTemplateTasks at step ⊢
    rw [List.foldl_cons]
    rw [step]
    simp [newChildrenFrom]
    omega

lemma template_id_newChildrenFrom (start tid : Nat) (titles : List (Option String)) :
    (newChildrenFrom start tid titles).all (fun c => c.template_id == tid) = true := by
  induction titles generalizing start with
  | nil => rfl
  | cons ti ts ih =>
    simp_all [newChildrenFrom]
    exact ih (start + 1)

lemma postEntry_templates (db : DB) (p : EntryPayload) :
    (postEntry db p).templates = db.templates := by
  unfold postEntry
  cases p.date
  · rfl
  · dsimp only
    split <;> rfl

lemma postEntry_templateTasks (db : DB) (p : EntryPayload) :
    (postEntry db p).templateTasks = db.templateTasks := by
  unfold postEntry
  cases p.date
  · rfl
  · dsimp only
    split <;> rfl

lemma applyTemplate_eq (db : DB) (date : Option String) (tid : Nat) :
    applyTemplate db date tid =
      { db with
        tasks := db.tasks ++ newTasksFrom db.nextTaskId date (getTemplateChildren db tid),
        nextTaskId := db.nextTaskId + (getTemplateChildren db tid).length } := by
  unfold applyTemplate
  rw [foldl_insertTask]

/-- No `routine_template_tasks` row without its owning
`routine_templates` row. -/
def noOrphans (db : DB) : Bool :=
  db.templateTasks.all (fun c => db.templates.any (fun t => t.id == c.template_id))

lemma noOrphans_applyOp (db : DB) (op : Op) (h : noOrphans db = true) :
    noOrphans (applyOp db op) = true := by
  cases op with
  | postEntry p =>
    unfold noOrphans at h ⊢
    rw [applyOp, postEntry_templates, postEntry_templateTasks]
    exact h
  | postTarget type title period_key => exact h
  | patchTarget id completed => exact h
  | deleteTarget id => exact h
  | postTask date title => exact h
  | patchTask id completed => exact h
  | deleteTask id => exact h
  | applyTemplate date tid =>
    unfold noOrphans at h ⊢
    rw [applyOp, applyTemplate_eq]
    exact h
  | deleteTemplate id =>
    unfold noOrphans at h ⊢
    rw [applyOp]
    unfold deleteRoutineTemplate
    simp only [List.all_eq_true, List.any_eq_true, List.mem_filter] at h ⊢
    intro c hc
    obtain ⟨t, ht, htid⟩ := h c hc.1
    refine ⟨t, ⟨ht, ?_⟩, htid⟩
    have : t.id = c.template_id := by simpa using htid
    have hNe : c.template_id ≠ id := by simpa using hc.2
    simp [this, hNe]
  | postTemplate name titles =>
    unfold noOrphans at h ⊢
    rw [applyOp]
    unfold postRoutineTemplates
    cases name with
    | none =>
      dsimp only
      rw [insertTemplateTasks_eq]
      simp only [List.all_eq_true, List.any_eq_true, List.mem_append] at h ⊢
      intro c hc
      cases hc with
      | inl hold =>
        obtain ⟨t, ht, htid⟩ := h c hold
        exact ⟨t, Or.inl ht, htid⟩
      | inr hnew =>
        refine ⟨⟨db.nextTemplateId, none⟩, Or.inr (by simp), ?_⟩
        have hall := template_id_newChildrenFrom
          ({ db with
            templates := db.templates ++ [⟨db.nextTemplateId, none⟩],
            nextTemplateId := db.nextTemplateId + 1 } : DB).nextTemplateTaskId
          db.nextTemplateId titles
        simp only [List.all_eq_true] at hall
        have h2 := hall c hnew
        have h3 : c.template_id = db.nextTemplateId := by simpa using h2
        simp [h3]
    | some n =>
      dsimp only
      by_cases hdup : (db.templates.any fun t => t.name == some n) = true
      · rw [if_pos hdup]
        exact h
      · rw [if_neg hdup]
        dsimp only
        rw [insertTemplateTasks_eq]
        simp only [List.all_eq_true, List.any_eq_true, List.mem_append] at h ⊢
        intro c hc
        cases hc with
        | inl hold =>
          obtain ⟨t, ht, htid⟩ := h c hold
          exact ⟨t, Or.inl ht, htid⟩
        | inr hnew =>
          refine ⟨⟨db.nextTemplateId, some n⟩, Or.inr (by simp), ?_⟩
          have hall := template_id_newChildrenFrom
            ({ db with
              templates := db.templates ++ [⟨db.nextTemplateId, some n⟩],
              nextTemplateId := db.nextTemplateId + 1 } : DB).nextTemplateTaskId
            db.nextTemplateId titles
          simp only [List.all_eq_true] at hall
          have h2 := hall c hnew
          have h3 : c.template_id = db.nextTemplateId := by simpa using h2
          simp [h3]

lemma noOrphans_foldl (ops : List Op) (db : DB) (h : noOrphans db = true) :
    noOrphans (ops.foldl applyOp db) = true := by
  induction ops generalizing db with
  | nil => exact h
  | cons op ops ih => exact ih _ (noOrphans_applyOp db op h)

/-- C2: deleting a routine template removes every one of its child rows
(no row with that `template_id` survives and the children query returns
empty afterwards), and in every state reachable by the API no
`routine_template_tasks` row is orphaned. -/
theorem deleteTemplate_cascades_no_orphans :
    (∀ (db : DB) (id : Nat),
      (deleteRoutineTemplate db id).templateTasks.all
        (fun c => c.template_id != id) = true) ∧
    (∀ (db : DB) (id : Nat),
      getTemplateChildren (deleteRoutineTemplate db id) id = []) ∧
    (∀ ops : List Op, noOrphans (run ops) = true) := by
  refine ⟨?_, ?_, ?_⟩
  · intro db id
    unfold deleteRoutineTemplate
    simp only [List.all_eq_true, List.mem_filter]
    exact fun c hc => hc.2
  · intro db id
    unfold getTemplateChildren deleteRoutineTemplate
    simp [List.filter_filter]
  · intro ops
    exact noOrphans_foldl ops DB.init rfl

lemma postTemplate_entries (db : DB) (name : Option String) (titles : List (Option String)) :
    (applyOp db (.postTemplate name titles)).entries = db.entries := by
  rw [applyOp]
  unfold postRoutineTemplates
  cases name with
  | none =>
    dsimp only
    rw [insertTemplateTasks_eq]
  | some n =>
    dsimp only
    by_cases hdup : (db.templates.any fun t => t.name == some n) = true
    · rw [if_pos hdup]
    · rw [if_neg hdup]
      dsimp only
      rw [insertTemplateTasks_eq]

lemma countP_entries_postEntry (db : DB) (p : EntryPayload) (d : String)
    (h : db.entries.countP (fun e => e.date == some d) ≤ 1) :
    (postEntry db p).entries.countP (fun e => e.date == some d) ≤ 1 := by
  unfold postEntry
  cases hp : p.date with
  | none =>
    dsimp only
    rw [List.countP_append]
    simpa using h
  | some d2 =>
    dsimp only
    by_cases hany : (db.entries.any fun e => e.date == some d2) = true
    · rw [if_pos hany]
      dsimp only
      rw [List.countP_map]
      have heq : db.entries.countP
          ((fun e => e.date == some d) ∘ (fun e =>
            if e.date == some d2 then
              { e with
                journal_text := p.journal_text,
                mood := p.mood,
                sleep_start := p.sleep_start,
                sleep_end := p.sleep_end,
                reflection_json := p.reflection_json,
                image_data := coalesce p.image_data e.image_data }
            else e))
          = db.entries.countP (fun e => e.date == some d) := by
        apply List.countP_congr
        intro e _
        by_cases hc : e.date = some d2 <;> simp [hc]
      rw [heq]
      exact h
    · rw [if_neg hany]
      dsimp only
      rw [List.countP_append]
      by_cases hd : d2 = d
      · subst hd
        have h0 : db.entries.countP (fun e => e.date == some d2) = 0 := by
          rw [List.countP_eq_zero]
          intro e he
          have := (List.any_eq_true.not.mp hany)
          push_neg at this
          simpa using this e he
        rw [h0]
        simp
      · have h1 : (((⟨db.nextEntryId, some d2, p.journal_text, p.mood, p.sleep_start,
            p.sleep_end, p.reflection_json, p.image_data⟩ : EntryRow)).date == some d)
            = false := by
          simp [hd]
        simpa [h1] using h

lemma countP_entries_applyOp (db : DB) (op : Op) (d : String)
    (h : db.entries.countP (fun e => e.date == some d) ≤ 1) :
    (applyOp db op).entries.countP (fun e => e.date == some d) ≤ 1 := by
  cases op with
  | postEntry p => exact countP_entries_postEntry db p d h
  | postTarget type title period_key => exact h
  | patchTarget id completed => exact h
  | deleteTarget id => exact h
  | postTask date title => exact h
  | patchTask id completed => exact h
  | deleteTask id => exact h
  | postTemplate name titles => rw [postTemplate_entries]; exact h
  | deleteTemplate id => exact h
  | applyTemplate date tid => rw [applyOp, applyTemplate_eq]; exact h

lemma countP_entries_foldl (ops : List Op) (db : DB) (d : String)
    (h : db.entries.countP (fun e => e.date == some d) ≤ 1) :
    (ops.foldl applyOp db).entries.countP (fun e => e.date == some d) ≤ 1 := by
  induction ops generalizing db with
  | nil => exact h
  | cons op ops ih => exact ih _ (countP_entries_applyOp db op d h)

/-- C7: in every state reachable by the API operations, at most one
`entries` row exists per date: the upsert updates an existing row for the
date in place instead of inserting a second one. -/
theorem at_most_one_entry_per_date (ops : List Op) (d : String) :
    (run ops).entries.countP (fun e => e.date == some d) ≤ 1 :=
  countP_entries_foldl ops DB.init d (by simp [DB.init])

/-- C8: `GET /api/entries` returns all stored entry rows (a permutation
of the table) ordered newest date first, i.e. non-increasing by date. -/
theorem getEntries_newest_first (db : DB) :
    (getEntries db).Perm db.entries ∧ (getEntries db).Sorted entryDateGe :=
  ⟨List.perm_insertionSort entryDateGe db.entries,
   List.sorted_insertionSort entryDateGe db.entries⟩

/-- C6: `GET /api/entries/:date` answers `null` with a success status
when no entry exists for the date, and none of the read-by-key endpoints
(entry by date, tasks by date, targets by period, templates list) can
answer with an error status. -/
theorem read_endpoints_never_error (db : DB) (d period : String) :
    (db.entries.all (fun e => e.date != some d) = true →
      getEntryHandler db d = .ok .null) ∧
    (getEntryHandler db d).isOk = true ∧
    (getTasksHandler db d).isOk = true ∧
    (getTargetsHandler db period).isOk = true ∧
    (getTemplatesHandler db).isOk = true := by
  refine ⟨?_, ?_, rfl, rfl, rfl⟩
  · intro h
    unfold getEntryHandler getEntryByDate
    have hnone : db.entries.find? (fun e => e.date == some d) = none := by
      rw [List.find?_eq_none]
      intro e he
      simp only [List.all_eq_true] at h
      simpa using h e he
    rw [hnone]
  · unfold getEntryHandler
    cases getEntryByDate db d <;> rfl

/-- C6 (witness): against the fresh database, fetching an unsaved date
yields the JSON value `null` with a success status. -/
theorem read_endpoints_never_error_witness :
    (DB.init.entries.all (fun e => e.date != some dJan) = true) ∧
    getEntryHandler DB.init dJan = .ok .null :=
  ⟨rfl, (read_endpoints_never_error DB.init dJan dJan).1 rfl⟩

/-- A database already holding a template named by `sMorning`. -/
def dbMorning : DB :=
  { DB.init with templates := [⟨1, some sMorning⟩], nextTemplateId := 2 }

/-- C10: creating a routine template whose name equals an existing
template's name fails on the parent insert's UNIQUE constraint before the
child-insert loop runs, so the request errors and both template tables
are left exactly as they were. -/
theorem duplicate_template_name_rejected (db : DB)
    (name : Option String) (titles : List (Option String)) (n : String)
    (h1 : name = some n)
    (h2 : db.templates.any (fun t => t.name == some n) = true) :
    postRoutineTemplates db name titles = .error () ∧
    applyOp db (.postTemplate name titles) = db := by
  subst h1
  constructor
  · unfold postRoutineTemplates
    dsimp only
    rw [if_pos h2]
  · rw [applyOp]
    unfold postRoutineTemplates
    dsimp only
    rw [if_pos h2]

/-- C10 (witness): re-posting the template name in `dbMorning` errors and
leaves the database unchanged. -/
theorem duplicate_template_name_rejected_witness :
    (dbMorning.templates.any (fun t => t.name == some sMorning) = true) ∧
    (postRoutineTemplates dbMorning (some sMorning) [some sStretch] = .error () ∧
     applyOp dbMorning (.postTemplate (some sMorning) [some sStretch]) = dbMorning) :=
  ⟨by decide, duplicate_template_name_rejected dbMorning (some sMorning)
    [some sStretch] sMorning rfl (by decide)⟩

/-! ### The entry upsert -/

lemma find?_date_map_update (l : List EntryRow) (d : String) (g : EntryRow → EntryRow)
    (hg : ∀ e, (g e).date = e.date)
    (hl : ∀ e ∈ l, ¬ e.date = some d) :
    (l.map g).find? (fun e => e.date == some d) = none := by
  rw [List.find?_eq_none]
  intro x hx
  obtain ⟨e, he, rfl⟩ := List.mem_map.mp hx
  simp [hg e, hl e he]

lemma find?_date_append (l1 l2 : List EntryRow) (d : String)
    (h : l1.find? (fun e => e.date == some d) = none) :
    (l1 ++ l2).find? (fun e => e.date == some d)
      = l2.find? (fun e => e.date == some d) := by
  rw [List.find?_append, h]
  rfl

/-- C1: create an entry for a fresh date `d` with payload `p1`, then save
a second payload `p2` for the same date: the stored row keeps its image
when `p2`'s `image_data` is null/absent (it is `p1`'s image), is
overwritten when `p2`'s `image_data` is non-null, and every other column
holds `p2`'s values. -/
theorem entry_upsert_preserves_image (db : DB) (p1 p2 : EntryPayload) (d : String)
    (h0 : db.entries.all (fun e => e.date != some d) = true)
    (h1 : p1.date = some d) (h2 : p2.date = some d) :
    ((getEntryByDate (postEntry (postEntry db p1) p2) d).map (fun e => e.image_data)
      = some (coalesce p2.image_data p1.image_data)) ∧
    ((getEntryByDate (postEntry (postEntry db p1) p2) d).map (fun e => e.journal_text)
      = some p2.journal_text) ∧
    ((getEntryByDate (postEntry (postEntry db p1) p2) d).map (fun e => e.mood)
      = some p2.mood) ∧
    ((getEntryByDate (postEntry (postEntry db p1) p2) d).map (fun e => e.sleep_start)
      = some p2.sleep_start) ∧
    ((getEntryByDate (postEntry (postEntry db p1) p2) d).map (fun e => e.sleep_end)
      = some p2.sleep_end) ∧
    ((getEntryByDate (postEntry (postEntry db p1) p2) d).map (fun e => e.reflection_json)
      = some p2.reflection_json) ∧
    (p2.image_data = none →
      (getEntryByDate (postEntry (postEntry db p1) p2) d).map (fun e => e.image_data)
        = some p1.image_data) ∧
    (∀ v, p2.image_data = some v →
      (getEntryByDate (postEntry (postEntry db p1) p2) d).map (fun e => e.image_data)
        = some (some v)) := by
  have hall : ∀ e ∈ db.entries, ¬ e.date = some d := by
    simp only [List.all_eq_true] at h0
    intro e he
    simpa using h0 e he
  have hany1 : (db.entries.any fun e => e.date == some d) = false := by
    simp only [List.any_eq_false]
    intro e he
    simp [hall e he]
  have step1 : postEntry db p1 =
      { db with
        entries := db.entries ++
          [⟨db.nextEntryId, some d, p1.journal_text, p1.mood, p1.sleep_start,
            p1.sleep_end, p1.reflection_json, p1.image_data⟩],
        nextEntryId := db.nextEntryId + 1 } := by
    unfold postEntry
    rw [h1]
    dsimp only
    rw [if_neg (by simp [hany1])]
  have key : getEntryByDate (postEntry (postEntry db p1) p2) d =
      some ⟨db.nextEntryId, some d, p2.journal_text, p2.mood, p2.sleep_start,
        p2.sleep_end, p2.reflection_json,
        coalesce p2.image_data p1.image_data⟩ := by
    rw [step1]
    unfold postEntry
    rw [h2]
    dsimp only
    rw [if_pos (by simp)]
    unfold getEntryByDate
    dsimp only
    rw [List.map_append]
    rw [find?_date_append _ _ d (find?_date_map_update db.entries d _
      (fun e => by by_cases hc : e.date = some d <;> simp [hc]) hall)]
    simp
  rw [key]
  refine ⟨rfl, rfl, rfl, rfl, rfl, rfl, ?_, ?_⟩
  · intro hv
    rw [hv]
    rfl
  · intro v hv
    rw [hv]
    rfl

def sHello : String := "hello"
def sJoyful : String := "Joyful"
def sTen : String := "22:00"
def sSix : String := "06:00"
def sRefl : String := "reflection"
def sImg : String := "image-bytes"
def sLater : String := "later note"

/-- The first payload saved for the example date: full fields including
an image. -/
def p1c : EntryPayload :=
  ⟨some dJan, some sHello, some sJoyful, some sTen, some sSix, some sRefl, some sImg⟩

/-- The second payload for the same date: new text, image absent. -/
def p2c : EntryPayload :=
  ⟨some dJan, some sLater, some sJoyful, some sTen, some sSix, some sRefl, none⟩

/-- C1 (witness): saving `p1c` then `p2c` on a fresh database keeps
`p1c`'s image. -/
theorem entry_upsert_preserves_image_witness :
    (DB.init.entries.all (fun e => e.date != some dJan) = true) ∧
    ((getEntryByDate (postEntry (postEntry DB.init p1c) p2c) dJan).map
      (fun e => e.image_data) = some (coalesce p2c.image_data p1c.image_data)) :=
  ⟨rfl, (entry_upsert_preserves_image DB.init p1c p2c dJan rfl rfl rfl).1⟩

end Aham
